import Mathlib

set_option maxHeartbeats 1000000

/-!
# Verification of the Satpam token resolver (src/satpam.ts)

Shallow embedding of the `Satpam` class.  JavaScript values that may be a
string, `undefined` or `null` are modelled as `Option String` (`none` stands
for the nullish values, which behave identically in every operation the
source performs on them: truthiness tests, `??`, strict comparison with a
string literal).  The external collaborators from the spec's §6 are treated
as black boxes: the request carries the mapping produced by `parseCookies`,
and `serializeCookie` is an arbitrary function parameter `ser`.  Response
header writing (three object-shaped paths plus the `document.cookie`
fallback, all of which emit the one serialized cookie string) is modelled as
an abstract write log, since no claim distinguishes the sinks.  The `async`
keywords in the source only thread the hook's promise; the embedding is the
corresponding pure state-passing code.
-/

/-- Model of JavaScript s.split(c) for a one-character separator, on the
character list: split at every occurrence, keep empty pieces, and the empty
string yields a single empty piece. -/
def splitCharAux (c : Char) : List Char → List (List Char)
  | [] => [[]]
  | x :: xs =>
    if x = c then [] :: splitCharAux c xs
    else (x :: (splitCharAux c xs).headD []) :: (splitCharAux c xs).tail

/-- JavaScript url.split(sep) for the one-character separators used by the
source ('&', '=', '?', '#'). -/
def jsSplit (c : Char) (s : String) : List String :=
  (splitCharAux c s.data).map (fun l => String.mk l)

/-- JavaScript url.includes(c) for a one-character needle. -/
def jsIncludes (s : String) (c : Char) : Bool := s.data.contains c

/-- Truthiness of a JS string-or-nullish value: undefined, null and the
empty string are falsy, every other string truthy. -/
def truthy : Option String → Bool
  | none => false
  | some s => s != ""

/-- One step of the reduce in _urlParamCheck: acc[key] = value on a plain
JS object.  The most recent assignment wins, so we cons and look up the
first hit. -/
def jsAssign (m : List (String × Option String)) (k : String) (v : Option String) :
    List (String × Option String) :=
  (k, v) :: m

/-- Property read acc[k] on the object built by jsAssign: undefined when the
key was never assigned. -/
def jsGet (m : List (String × Option String)) (k : String) : Option String :=
  match m.find? (fun p => p.1 == k) with
  | some p => p.2
  | none => none

/-- The parse in _urlParamCheck (src/satpam.ts lines 70-72):
params.split('&').map(item => item.split('=')).reduce(assign, empty object).
`val[0]` is the head of the '='-split (always present), `val[1]` its second
element, undefined when the piece holds no '='. -/
def parseParams (params : String) : List (String × Option String) :=
  ((jsSplit '&' params).map (fun item => jsSplit '=' item)).foldl
    (fun acc val => jsAssign acc (val.headD "") (val.get? 1)) []

/-- SatpamSession record.  `token` is `Option String` because the source can
store `this.token` while that field is still `undefined`. -/
structure SatpamSession where
  status : Bool
  token : Option String
deriving DecidableEq

/-- The mutable instance fields of one Satpam object that the claims
observe: the found-token field, the session, and the log of cookie strings
written back to the response. -/
structure SatpamState where
  token : Option String
  session : SatpamSession
  writes : List String
deriving DecidableEq

/-- Immutable per-instance configuration, fixed by the constructor. -/
structure Config where
  name : String
  urlCheck : String
  autoSetCookie : Bool
deriving DecidableEq

/-- The SatpamOptions constructor argument, every field optional. -/
structure SatpamOptions where
  name : Option String := none
  urlCheck : Option String := none
  autoSetCookie : Option Bool := none

/-- Constructor defaults (src/satpam.ts lines 55-57): name 'satpam',
urlCheck '', autoSetCookie true. -/
def mkConfig (o : SatpamOptions) : Config :=
  { name := o.name.getD "satpam"
    urlCheck := o.urlCheck.getD ""
    autoSetCookie := o.autoSetCookie.getD true }

/-- Constructor state (line 58): this.token left undefined, session
initialised to status false / empty token, nothing written yet. -/
def mkState : SatpamState :=
  { token := none, session := { status := false, token := some "" }, writes := [] }

/-- The request URL: absent/undefined, a plain string, or a URL instance
(of which the source reads searchParams and hash; a real URL's hash string
carries its leading '#' when non-empty). -/
inductive ReqUrl where
  | missing
  | str (s : String)
  | url (searchParams : List (String × String)) (hash : String)
deriving DecidableEq

/-- The request as the resolver sees it: the cookie mapping produced by the
external parseCookies collaborator on request.headers.cookie (spec §6 black
box), and the request URL. -/
structure Request where
  cookies : List (String × String)
  url : ReqUrl
deriving DecidableEq

/-- Falsiness of this.request.url in the guard on line 139: absent or the
empty string; a URL instance is always truthy. -/
def urlFalsy : ReqUrl → Bool
  | .missing => true
  | .str s => s == ""
  | .url _ _ => false

/-- cookie[name] on the parseCookies result: the mapping's entry or
undefined. -/
def cookieGet (m : List (String × String)) (k : String) : Option String :=
  (m.find? (fun p => p.1 == k)).map (fun p => p.2)

/-- searchParams.has(key) on a URL instance's query collection. -/
def spHas (sp : List (String × String)) (k : String) : Bool :=
  sp.any (fun p => p.1 == k)

/-- A verify hook: receives the JS value the source passes (normally a
string, but the URL-instance path can pass undefined) and returns a string,
undefined or null. -/
abbrev Hook := Option String → Option String

/-- CookieSerializeOptions, passed through opaquely to the serializer. -/
abbrev CookieOpt := List (String × String)

/-- The external serializeCookie collaborator (spec §6 black box). -/
abbrev Ser := String → String → CookieOpt → String

/-- A JS argument position: omitted/undefined, null, or a string.  Omitted
and an explicit undefined both trigger the default parameter. -/
inductive JSArg where
  | undef
  | null
  | str (s : String)

/-- Passing the JS value held in a field as an argument: undefined triggers
the default parameter, a string is passed as itself. -/
def argOfVal : Option String → JSArg
  | none => .undef
  | some s => .str s

/-- The body of setSession (src/satpam.ts lines 189-217) applied to the JS
value of the local token after the default parameter and the ?? coalescing:
a falsy value (undefined or the empty string) returns early with no effect;
otherwise the cookie string is serialized, the session set to status true
with the **field** this.token (not the serialized argument), and the string
written back (one write, whichever sink applies) and returned. -/
def setSessionVal (cfg : Config) (ser : Ser) (opt : CookieOpt) (st : SatpamState) :
    Option String → Option String × SatpamState
  | none => (none, st)
  | some s =>
    if s = "" then (none, st)
    else
      (some (ser cfg.name s opt),
       { st with
          session := { status := true, token := st.token }
          writes := st.writes ++ [ser cfg.name s opt] })

/-- setSession (src/satpam.ts lines 186-192).  The default parameter turns
an omitted/undefined token argument into '', and '' ?? this.token stays '';
an explicit null is replaced by the field this.token (which may itself be
undefined); a string argument is kept as is. -/
def setSession (cfg : Config) (ser : Ser) (arg : JSArg) (opt : CookieOpt)
    (st : SatpamState) : Option String × SatpamState :=
  setSessionVal cfg ser opt st
    (match arg with
      | .undef => some ""
      | .null => st.token
      | .str s => some s)

/-- Lines 105-108 of _processToken: when a hook is set, a truthy result of
hook(token) replaces the token and a falsy one leaves it unchanged. -/
def hookApply (hook : Option Hook) (token : Option String) : Option String :=
  match hook with
  | some h => if truthy (h token) then h token else token
  | none => token

/-- _processToken (src/satpam.ts lines 82-118).  The argument is the JS
value actually passed at the call sites: a string, or undefined on the
URL-instance searchParams path. -/
def processToken (cfg : Config) (ser : Ser) (hook : Option Hook)
    (token : Option String) (st : SatpamState) : SatpamSession × SatpamState :=
  if token = some "" then
    match hook with
    | some h =>
      let result := h token
      if truthy result then
        let st1 := { st with token := result }
        if cfg.autoSetCookie then
          let st2 := (setSession cfg ser (argOfVal st1.token) [] st1).2
          (st2.session, st2)
        else
          let st2 := { st1 with session := { status := true, token := st1.token } }
          (st2.session, st2)
      else
        let st1 := { st with session := { status := false, token := some "" } }
        (st1.session, st1)
    | none =>
      let st1 := { st with session := { status := false, token := some "" } }
      (st1.session, st1)
  else
    let st1 := { st with token := hookApply hook token }
    if cfg.autoSetCookie then
      let st2 := (setSession cfg ser (argOfVal st1.token) [] st1).2
      (st2.session, st2)
    else
      let st2 := { st1 with session := { status := true, token := st1.token } }
      (st2.session, st2)

/-- _urlParamCheck (src/satpam.ts lines 69-80): parse the params string,
look up urlCheck; a truthy entry is processed as the token, anything else
falls to the empty token. -/
def urlParamCheck (cfg : Config) (ser : Ser) (hook : Option Hook)
    (params : String) (st : SatpamState) : SatpamSession × SatpamState :=
  if truthy (jsGet (parseParams params) cfg.urlCheck) then
    processToken cfg ser hook (jsGet (parseParams params) cfg.urlCheck) st
  else
    processToken cfg ser hook (some "") st

/-- The substring JS destructures from url.split('?') (the piece between
the first and second '?'). -/
def qsubOf (url : String) : String := (jsSplit '?' url).getD 1 ""

/-- The substring JS destructures from url.split('#'). -/
def hsubOf (url : String) : String := (jsSplit '#' url).getD 1 ""

/-- verify (src/satpam.ts lines 127-176).  Order: truthy cookie[name]
first; else, empty urlCheck or falsy url go straight to the empty token;
else a string url is checked at '?' then '#' (each only when the
destructured piece is non-empty); else a URL instance is checked via
searchParams.has - whose hit reads searchParams[urlCheck], a plain property
access that yields undefined, not the parameter value - then via its hash;
anything left processes the empty token.  The hook argument is stored in
this.hook for the call; we pass it along. -/
def verify (cfg : Config) (ser : Ser) (cb : Option Hook) (req : Request)
    (st : SatpamState) : SatpamSession × SatpamState :=
  if truthy (cookieGet req.cookies cfg.name) then
    processToken cfg ser cb (cookieGet req.cookies cfg.name) st
  else if cfg.urlCheck = "" ∨ urlFalsy req.url then processToken cfg ser cb (some "") st
  else
    match req.url with
    | .missing => processToken cfg ser cb (some "") st
    | .str url =>
      if jsIncludes url '?' ∧ qsubOf url ≠ "" then
        urlParamCheck cfg ser cb (qsubOf url) st
      else if jsIncludes url '#' ∧ hsubOf url ≠ "" then
        urlParamCheck cfg ser cb (hsubOf url) st
      else processToken cfg ser cb (some "") st
    | .url sp hash =>
      if spHas sp cfg.urlCheck then processToken cfg ser cb none st
      else if hash ≠ "" then urlParamCheck cfg ser cb hash st
      else processToken cfg ser cb (some "") st

/-- getSession (lines 225-227): returns the stored session, no effects. -/
def getSession (st : SatpamState) : SatpamSession := st.session

/-- The candidate token a urlParamCheck call forwards to processToken. -/
def urlParamToken (urlCheck : String) (params : String) : Option String :=
  if truthy (jsGet (parseParams params) urlCheck) then jsGet (parseParams params) urlCheck
  else some ""

/-- The candidate token verify forwards to processToken, branch by branch
mirroring verify. -/
def findToken (cfg : Config) (req : Request) : Option String :=
  if truthy (cookieGet req.cookies cfg.name) then cookieGet req.cookies cfg.name
  else if cfg.urlCheck = "" ∨ urlFalsy req.url then some ""
  else
    match req.url with
    | .missing => some ""
    | .str url =>
      if jsIncludes url '?' ∧ qsubOf url ≠ "" then urlParamToken cfg.urlCheck (qsubOf url)
      else if jsIncludes url '#' ∧ hsubOf url ≠ "" then urlParamToken cfg.urlCheck (hsubOf url)
      else some ""
    | .url sp hash =>
      if spHas sp cfg.urlCheck then none
      else if hash ≠ "" then urlParamToken cfg.urlCheck hash
      else some ""

/-- The spec's session invariant: status is true exactly when the token
field holds a non-empty string. -/
def sessionInv (s : SatpamSession) : Prop := s.status = truthy s.token

instance (s : SatpamSession) : Decidable (sessionInv s) := by
  unfold sessionInv; infer_instance

/-- A concrete serializer standing in for the external serializeCookie in
witnesses and counterexamples. -/
def serCat : Ser := fun n t _ => n ++ "=" ++ t

/-- Concrete configuration: defaults plus urlCheck 'tok'. -/
def cfgW : Config := { name := "satpam", urlCheck := "tok", autoSetCookie := true }

/-- Like cfgW but with autoSetCookie disabled. -/
def cfgWna : Config := { name := "satpam", urlCheck := "tok", autoSetCookie := false }

/-- A state whose found-token field holds 'abc' (as after a verify that
found that cookie). -/
def stTok : SatpamState :=
  { token := some "abc", session := { status := true, token := some "abc" }, writes := [] }

@[simp]
theorem truthy_none : truthy none = false := rfl

@[simp]
theorem truthy_some (s : String) : truthy (some s) = (s != "") := rfl

/-- setSession on a non-empty string argument: serialize, set the session
(status true, token taken from the field this.token), log the write, return
the cookie string. -/
theorem setSession_found (cfg : Config) (ser : Ser) (opt : CookieOpt)
    (st : SatpamState) (s : String) (hs : s ≠ "") :
    setSession cfg ser (JSArg.str s) opt st =
      (some (ser cfg.name s opt),
       { st with
          session := { status := true, token := st.token }
          writes := st.writes ++ [ser cfg.name s opt] }) := by
  simp [setSession, setSessionVal, hs]

/-- _processToken on a non-empty string candidate resolves some non-empty
token v (the hook's replacement when truthy, the candidate otherwise) and
ends with session status true carrying v. -/
theorem processToken_found (cfg : Config) (ser : Ser) (hook : Option Hook)
    (s : String) (st : SatpamState) (hs : s ≠ "") :
    ∃ v, v ≠ "" ∧ hookApply hook (some s) = some v ∧
      processToken cfg ser hook (some s) st =
        ({ status := true, token := some v },
         if cfg.autoSetCookie then
           { st with
              token := some v
              session := { status := true, token := some v }
              writes := st.writes ++ [ser cfg.name v []] }
         else
           { st with
              token := some v
              session := { status := true, token := some v } }) := by
  have key : ∀ v : String, v ≠ "" → hookApply hook (some s) = some v →
      processToken cfg ser hook (some s) st =
        ({ status := true, token := some v },
         if cfg.autoSetCookie then
           { st with
              token := some v
              session := { status := true, token := some v }
              writes := st.writes ++ [ser cfg.name v []] }
         else
           { st with
              token := some v
              session := { status := true, token := some v } }) := by
    intro v hv htok
    unfold processToken
    rw [if_neg (by simp [hs])]
    by_cases ha : cfg.autoSetCookie <;>
      simp [htok, ha, argOfVal, setSession_found cfg ser [] _ v hv]
  cases hook with
  | none => exact ⟨s, hs, rfl, key s hs rfl⟩
  | some h =>
    by_cases ht : truthy (h (some s)) = true
    · obtain ⟨v, hv⟩ : ∃ v, h (some s) = some v := by
        cases hhs : h (some s)
        · rw [hhs] at ht; simp at ht
        · exact ⟨_, rfl⟩
      have hvne : v ≠ "" := by
        rw [hv] at ht; simpa using ht
      refine ⟨v, hvne, ?_, key v hvne ?_⟩ <;> simp [hookApply, ht, hv, hvne]
    · have ht' : truthy (h (some s)) = false := by simpa using ht
      refine ⟨s, hs, ?_, key s hs ?_⟩ <;> simp [hookApply, ht']

/-- _processToken on the empty string with no hook, or a hook whose result
is falsy: session becomes status false with the empty token. -/
theorem processToken_empty (cfg : Config) (ser : Ser) (hook : Option Hook)
    (st : SatpamState)
    (h : ∀ f, hook = some f → truthy (f (some "")) = false) :
    processToken cfg ser hook (some "") st =
      ({ status := false, token := some "" },
       { st with session := { status := false, token := some "" } }) := by
  unfold processToken
  cases hook with
  | none => simp
  | some f => simp [h f rfl]

/-- urlParamCheck forwards the candidate computed by urlParamToken. -/
theorem urlParamCheck_eq (cfg : Config) (ser : Ser) (hook : Option Hook)
    (params : String) (st : SatpamState) :
    urlParamCheck cfg ser hook params st =
      processToken cfg ser hook (urlParamToken cfg.urlCheck params) st := by
  unfold urlParamCheck urlParamToken
  split <;> rfl

/-- verify is token location followed by token processing: it always calls
_processToken on the candidate described by findToken. -/
theorem verify_eq_processToken (cfg : Config) (ser : Ser) (hook : Option Hook)
    (req : Request) (st : SatpamState) :
    verify cfg ser hook req st = processToken cfg ser hook (findToken cfg req) st := by
  obtain ⟨cookies, u⟩ := req
  unfold verify findToken
  cases u <;> simp only <;> split_ifs <;> simp [urlParamCheck_eq]

/-- _processToken with a string argument always leaves a session satisfying
the status-iff-non-empty-token invariant. -/
theorem sessionInv_processToken_some (cfg : Config) (ser : Ser) (hook : Option Hook)
    (s : String) (st : SatpamState) :
    sessionInv (processToken cfg ser hook (some s) st).2.session := by
  by_cases hs : s = ""
  · subst hs
    by_cases hres : ∀ f, hook = some f → truthy (f (some "")) = false
    · rw [processToken_empty cfg ser hook st hres]
      simp [sessionInv]
    · push_neg at hres
      obtain ⟨f, hf, hft⟩ := hres
      have hft : truthy (f (some "")) = true := by
        cases h : truthy (f (some "")) with
        | false => exact absurd h hft
        | true => rfl
      obtain ⟨v, hv⟩ : ∃ v, f (some "") = some v := by
        cases hh : f (some "")
        · rw [hh] at hft; simp at hft
        · exact ⟨_, rfl⟩
      have hvne : v ≠ "" := by rw [hv] at hft; simpa using hft
      subst hf
      unfold processToken
      rw [if_pos rfl]
      by_cases ha : cfg.autoSetCookie <;>
        simp only [hv, hft, ha, if_true, if_false, argOfVal,
          setSession_found cfg ser [] _ v hvne] <;>
        simp [sessionInv, hvne]
  · obtain ⟨v, hvne, -, heq⟩ := processToken_found cfg ser hook s st hs
    rw [heq]
    by_cases ha : cfg.autoSetCookie <;> simp [ha, sessionInv, hvne]

/-- urlParamCheck always leaves a session satisfying the invariant. -/
theorem sessionInv_urlParamCheck (cfg : Config) (ser : Ser) (hook : Option Hook)
    (params : String) (st : SatpamState) :
    sessionInv (urlParamCheck cfg ser hook params st).2.session := by
  unfold urlParamCheck
  split
  · next ht =>
    obtain ⟨v, hv⟩ : ∃ v, jsGet (parseParams params) cfg.urlCheck = some v := by
      cases h : jsGet (parseParams params) cfg.urlCheck
      · rw [h] at ht; simp at ht
      · exact ⟨_, rfl⟩
    rw [hv]
    exact sessionInv_processToken_some cfg ser hook v st
  · exact sessionInv_processToken_some cfg ser hook "" st

theorem splitCharAux_ne_nil (c : Char) (l : List Char) : splitCharAux c l ≠ [] := by
  induction l with
  | nil => simp [splitCharAux]
  | cons x xs ih =>
    unfold splitCharAux
    split <;> simp

/-- A piece free of the separator stays whole. -/
theorem splitCharAux_not_mem (c : Char) (l : List Char) (h : c ∉ l) :
    splitCharAux c l = [l] := by
  induction l with
  | nil => rfl
  | cons x xs ih =>
    have hx : ¬ x = c := fun he => h (he ▸ List.mem_cons_self x xs)
    have hxs : c ∉ xs := fun hm => h (List.mem_cons_of_mem x hm)
    unfold splitCharAux
    rw [if_neg hx, ih hxs]
    rfl

/-- Splitting at the first separator occurrence: the separator-free part
before it becomes the first piece. -/
theorem splitCharAux_append (c : Char) (k rest : List Char) (h : c ∉ k) :
    splitCharAux c (k ++ c :: rest) = k :: splitCharAux c rest := by
  induction k with
  | nil => simp [splitCharAux]
  | cons x xs ih =>
    have hx : ¬ x = c := fun he => h (he ▸ List.mem_cons_self x xs)
    have hxs : c ∉ xs := fun hm => h (List.mem_cons_of_mem x hm)
    show splitCharAux c (x :: (xs ++ c :: rest)) = (x :: xs) :: splitCharAux c rest
    conv_lhs => rw [splitCharAux]
    rw [if_neg hx, ih hxs]
    rfl

/-- The first piece of a split is the maximal separator-free leading
segment. -/
theorem splitCharAux_headD (c : Char) (l : List Char) :
    (splitCharAux c l).headD [] = l.takeWhile (fun x => x != c) := by
  induction l with
  | nil => rfl
  | cons x xs ih =>
    unfold splitCharAux
    by_cases hx : x = c
    · subst hx
      simp [List.takeWhile_cons]
    · rw [if_neg hx]
      have h1 : ((x :: (splitCharAux c xs).headD []) :: (splitCharAux c xs).tail).headD [] =
          x :: (splitCharAux c xs).headD [] := rfl
      rw [h1, ih, List.takeWhile_cons]
      simp [hx]

/-- A truthy JS string value is a non-empty string. -/
theorem truthy_some_of (v : Option String) (h : truthy v = true) :
    ∃ s, v = some s ∧ s ≠ "" := by
  cases v with
  | none => simp at h
  | some s => exact ⟨s, rfl, by simpa using h⟩

/-- urlParamToken never produces undefined: a missing or falsy entry falls
back to the empty string. -/
theorem urlParamToken_isSome (urlCheck params : String) :
    ∃ s, urlParamToken urlCheck params = some s := by
  unfold urlParamToken
  split
  · next ht => obtain ⟨s, hv, -⟩ := truthy_some_of _ ht; exact ⟨s, hv⟩
  · exact ⟨"", rfl⟩

/-- Outside the URL-instance searchParams branch, the candidate verify
forwards is always a string (never undefined). -/
theorem findToken_isSome (cfg : Config) (req : Request)
    (h : ∀ sp hash, req.url = ReqUrl.url sp hash → spHas sp cfg.urlCheck = false) :
    ∃ s, findToken cfg req = some s := by
  obtain ⟨cookies, u⟩ := req
  unfold findToken
  split
  · next hck => obtain ⟨cv, hcv, -⟩ := truthy_some_of _ hck; exact ⟨cv, hcv⟩
  · split
    · exact ⟨"", rfl⟩
    · cases u with
      | missing => exact ⟨"", rfl⟩
      | str url =>
        dsimp only
        split
        · exact urlParamToken_isSome ..
        · split
          · exact urlParamToken_isSome ..
          · exact ⟨"", rfl⟩
      | url sp hash =>
        dsimp only
        rw [if_neg (by simp [h sp hash rfl])]
        split
        · exact urlParamToken_isSome ..
        · exact ⟨"", rfl⟩

/-- Claim C1 (confirmed): when the parsed cookie mapping holds a non-empty
entry for the configured cookie name, verify resolves the token from that
entry (handing exactly that value to token processing) and never consults
the request URL: its result is unchanged under any replacement of the URL,
for every urlCheck configuration. -/
theorem claim_C1 (cfg : Config) (ser : Ser) (hook : Option Hook)
    (cookies : List (String × String)) (u u' : ReqUrl) (st : SatpamState)
    (h : truthy (cookieGet cookies cfg.name) = true) :
    verify cfg ser hook ⟨cookies, u⟩ st =
      processToken cfg ser hook (cookieGet cookies cfg.name) st ∧
    verify cfg ser hook ⟨cookies, u⟩ st = verify cfg ser hook ⟨cookies, u'⟩ st := by
  constructor <;> simp [verify, h]

theorem claim_C1_witness :
    verify cfgW serCat none ⟨[("satpam", "tok1")], ReqUrl.str "a?tok=zzz"⟩ mkState =
      processToken cfgW serCat none (cookieGet [("satpam", "tok1")] cfgW.name) mkState ∧
    verify cfgW serCat none ⟨[("satpam", "tok1")], ReqUrl.str "a?tok=zzz"⟩ mkState =
      verify cfgW serCat none ⟨[("satpam", "tok1")], ReqUrl.missing⟩ mkState :=
  claim_C1 cfgW serCat none [("satpam", "tok1")] (ReqUrl.str "a?tok=zzz")
    ReqUrl.missing mkState (by decide)

/-- Claim C2 counterexample: with no cookie, urlCheck 'tok' and the string
URL 'p?foo=1#tok=B', the non-empty query substring lacks 'tok', and the
code does NOT fall through to the fragment: the result is the status-false
empty session, not the fragment's token 'B' the claim predicts. -/
theorem claim_C2_cex :
    (verify cfgW serCat none ⟨[], ReqUrl.str "p?foo=1#tok=B"⟩ mkState).1 =
      { status := false, token := some "" } ∧
    (verify cfgW serCat none ⟨[], ReqUrl.str "p?foo=1#tok=B"⟩ mkState).1.token ≠
      some "B" := by
  constructor
  · decide
  · decide

/-- Claim C2 (corrected): for a string URL containing '?' with a non-empty
destructured query substring, verify always returns the urlParamCheck of
that substring: when the parsed query lacks a truthy urlCheck entry the
empty token is processed and the fragment is never consulted.  (Query does
take priority over fragment, but there is no fall-through on a missing
key.) -/
theorem claim_C2 (cfg : Config) (ser : Ser) (hook : Option Hook)
    (cookies : List (String × String)) (url : String) (st : SatpamState)
    (hc : truthy (cookieGet cookies cfg.name) = false)
    (hu : cfg.urlCheck ≠ "")
    (h1 : jsIncludes url '?' = true)
    (h2 : qsubOf url ≠ "") :
    verify cfg ser hook ⟨cookies, ReqUrl.str url⟩ st =
      urlParamCheck cfg ser hook (qsubOf url) st ∧
    (truthy (jsGet (parseParams (qsubOf url)) cfg.urlCheck) = false →
      verify cfg ser hook ⟨cookies, ReqUrl.str url⟩ st =
        processToken cfg ser hook (some "") st) := by
  have hne : url ≠ "" := by
    intro he; subst he; simp [jsIncludes] at h1
  constructor
  · simp [verify, hc, hu, urlFalsy, hne, h1, h2]
  · intro hn
    simp [verify, hc, hu, urlFalsy, hne, h1, h2, urlParamCheck, hn]

theorem claim_C2_witness :
    verify cfgW serCat none ⟨[], ReqUrl.str "p?tok=A#tok=B"⟩ mkState =
      urlParamCheck cfgW serCat none (qsubOf "p?tok=A#tok=B") mkState :=
  (claim_C2 cfgW serCat none [] "p?tok=A#tok=B" mkState
    (by decide) (by decide) (by decide) (by decide)).1

/-- Claim C3 (code bug): the URL-instance branch checks
searchParams.has(urlCheck) but then reads searchParams[urlCheck], a plain
property access that yields undefined instead of the parameter value.  At a
request whose URL object carries the query parameter tok=abc (no cookie, no
hook, autoSetCookie on), the claim expects the resolved token 'abc'; the
code instead processes undefined, setSession no-ops on it, and verify
returns the unchanged status-false session. -/
theorem claim_C3 :
    spHas [("tok", "abc")] "tok" = true ∧
    verify cfgW serCat none ⟨[], ReqUrl.url [("tok", "abc")] ""⟩ mkState =
      ({ status := false, token := some "" }, mkState) := by
  constructor
  · decide
  · decide

/-- Claim C4 counterexample: on a resolver whose last found token is the
non-empty 'abc', calling setSession with the token argument omitted (JS
passes undefined, the default parameter makes it '') is a no-op returning
nothing - it does not serialize and persist 'abc' as the claim states. -/
theorem claim_C4_cex :
    setSession cfgW serCat JSArg.undef [] stTok = (none, stTok) := by
  decide

/-- Claim C4 (corrected): an omitted token argument becomes the default ''
and setSession is then the empty-token no-op; the resolver's last found
token is used only when null is passed explicitly, because only null
survives the default parameter to reach the ?? fallback. -/
theorem claim_C4 (cfg : Config) (ser : Ser) (opt : CookieOpt) (st : SatpamState)
    (t : String) (h1 : st.token = some t) (h2 : t ≠ "") :
    setSession cfg ser JSArg.undef opt st = (none, st) ∧
    setSession cfg ser JSArg.null opt st =
      (some (ser cfg.name t opt),
       { st with
          session := { status := true, token := st.token }
          writes := st.writes ++ [ser cfg.name t opt] }) := by
  constructor
  · simp [setSession, setSessionVal]
  · simp [setSession, setSessionVal, h1, h2]

theorem claim_C4_witness :
    setSession cfgW serCat JSArg.undef [] stTok = (none, stTok) ∧
    setSession cfgW serCat JSArg.null [] stTok =
      (some (serCat cfgW.name "abc" []),
       { stTok with
          session := { status := true, token := stTok.token }
          writes := stTok.writes ++ [serCat cfgW.name "abc" []] }) :=
  claim_C4 cfgW serCat [] stTok "abc" (by decide) (by decide)

/-- Claim C5 counterexample: on a fresh resolver (token field still
undefined), setSession('abc') serializes 'abc' but stores the session with
the field this.token, i.e. token undefined - not the serialized argument
'abc' the claim requires. -/
theorem claim_C5_cex :
    (setSession cfgW serCat (JSArg.str "abc") [] mkState).2.session =
      { status := true, token := none } ∧
    (setSession cfgW serCat (JSArg.str "abc") [] mkState).2.session.token ≠
      some "abc" := by
  constructor
  · decide
  · decide

/-- Claim C5 (corrected): for every non-empty token argument t, setSession
serializes t and returns the cookie string, but updates the session to
status true with the resolver's stored token field this.token - which
equals t only when the field already holds t, as on verify's auto-set
path. -/
theorem claim_C5 (cfg : Config) (ser : Ser) (opt : CookieOpt) (st : SatpamState)
    (s : String) (hs : s ≠ "") :
    setSession cfg ser (JSArg.str s) opt st =
      (some (ser cfg.name s opt),
       { st with
          session := { status := true, token := st.token }
          writes := st.writes ++ [ser cfg.name s opt] }) :=
  setSession_found cfg ser opt st s hs

theorem claim_C5_witness :
    setSession cfgW serCat (JSArg.str "xyz") [] stTok =
      (some (serCat cfgW.name "xyz" []),
       { stTok with
          session := { status := true, token := stTok.token }
          writes := stTok.writes ++ [serCat cfgW.name "xyz" []] }) :=
  claim_C5 cfgW serCat [] stTok "xyz" (by decide)

/-- Claim C6 counterexample: construct a resolver, then call
setSession('xyzzy').  The stored session becomes status true with token
this.token - still undefined - so status true holds while the token is not
a non-empty string: the invariant fails after a public operation. -/
theorem claim_C6_cex :
    ¬ sessionInv (setSession cfgW serCat (JSArg.str "xyzzy") [] mkState).2.session := by
  decide

/-- Claim C6 (corrected): the invariant (status true iff the session token
is a non-empty string) holds after construction and after every verify on a
request whose URL is not a URL instance carrying the urlCheck parameter
(that branch can store a status-true session with an undefined token, see
claim C3); after setSession with a non-empty token it holds only when the
stored field this.token is itself a truthy string, since the session
records the field rather than the serialized argument. -/
theorem claim_C6 :
    sessionInv mkState.session ∧
    (∀ (cfg : Config) (ser : Ser) (hook : Option Hook)
        (cookies : List (String × String)) (u : ReqUrl) (st : SatpamState),
        (∀ sp hash, u = ReqUrl.url sp hash → spHas sp cfg.urlCheck = false) →
        sessionInv (verify cfg ser hook ⟨cookies, u⟩ st).2.session) ∧
    (∀ (cfg : Config) (ser : Ser) (opt : CookieOpt) (st : SatpamState) (s : String),
        s ≠ "" → truthy st.token = true →
        sessionInv (setSession cfg ser (JSArg.str s) opt st).2.session) := by
  refine ⟨by simp [mkState, sessionInv], ?_, ?_⟩
  · intro cfg ser hook cookies u st hurl
    rw [verify_eq_processToken]
    obtain ⟨s, hs⟩ := findToken_isSome cfg ⟨cookies, u⟩ hurl
    rw [hs]
    exact sessionInv_processToken_some ..
  · intro cfg ser opt st s hs ht
    rw [setSession_found cfg ser opt st s hs]
    simp [sessionInv, ht]

theorem claim_C6_witness :
    sessionInv (verify cfgW serCat none ⟨[], ReqUrl.str "u?x=1"⟩ mkState).2.session :=
  claim_C6.2.1 cfgW serCat none [] (ReqUrl.str "u?x=1") mkState
    (fun sp hash hx => by cases hx)

/-- Claim C7 (confirmed): for a non-empty candidate token, a hook returning
a non-empty string replaces the candidate, a hook returning a falsy value
(or no hook at all) leaves it unchanged, and in every case the resulting
session has status true and is both returned and stored. -/
theorem claim_C7 (cfg : Config) (ser : Ser) (hook : Option Hook) (s : String)
    (st : SatpamState) (hs : s ≠ "") :
    (processToken cfg ser hook (some s) st).1.status = true ∧
    (processToken cfg ser hook (some s) st).2.session =
      (processToken cfg ser hook (some s) st).1 ∧
    (∀ f r, hook = some f → f (some s) = some r → r ≠ "" →
      (processToken cfg ser hook (some s) st).1.token = some r) ∧
    (∀ f, hook = some f → truthy (f (some s)) = false →
      (processToken cfg ser hook (some s) st).1.token = some s) ∧
    (hook = none → (processToken cfg ser hook (some s) st).1.token = some s) := by
  obtain ⟨v, hvne, htok, heq⟩ := processToken_found cfg ser hook s st hs
  refine ⟨by rw [heq], ?_, ?_, ?_, ?_⟩
  · rw [heq]
    by_cases ha : cfg.autoSetCookie <;> simp [ha]
  · intro f r hf hr hrne
    subst hf
    simp only [hookApply, hr] at htok
    rw [if_pos (by simpa using hrne)] at htok
    rw [heq]
    simpa using htok.symm
  · intro f hf hft
    subst hf
    simp only [hookApply, hft] at htok
    rw [heq]
    simpa using htok.symm
  · intro hf
    subst hf
    simp only [hookApply] at htok
    rw [heq]
    simpa using htok.symm

theorem claim_C7_witness :
    (processToken cfgW serCat (some (fun _ => some "new")) (some "old") mkState).1.status
      = true ∧
    (processToken cfgW serCat (some (fun _ => some "new")) (some "old") mkState).1.token
      = some "new" :=
  have h := claim_C7 cfgW serCat (some (fun _ => some "new")) "old" mkState
    (by decide)
  ⟨h.1, h.2.2.1 (fun _ => some "new") "new" rfl rfl (by decide)⟩

/-- Claim C8 (confirmed): when no source (cookie, query, fragment) yields a
token, verify with no hook returns the status-false empty session and
stores it; and the nothing-to-do setSession call is a silent no-op.  All
operations of the embedding are total functions: no error path exists. -/
theorem claim_C8 (cfg : Config) (ser : Ser) (req : Request) (st : SatpamState)
    (opt : CookieOpt) (h : findToken cfg req = some "") :
    verify cfg ser none req st =
      ({ status := false, token := some "" },
       { st with session := { status := false, token := some "" } }) ∧
    setSession cfg ser (JSArg.str "") opt st = (none, st) := by
  constructor
  · rw [verify_eq_processToken, h]
    exact processToken_empty cfg ser none st (fun f hf => by cases hf)
  · simp [setSession, setSessionVal]

theorem claim_C8_witness :
    verify (mkConfig {}) serCat none ⟨[], ReqUrl.missing⟩ mkState =
      ({ status := false, token := some "" },
       { mkState with session := { status := false, token := some "" } }) ∧
    setSession (mkConfig {}) serCat (JSArg.str "") [] mkState = (none, mkState) :=
  claim_C8 (mkConfig {}) serCat ⟨[], ReqUrl.missing⟩ mkState [] (by decide)

/-- Claim C9 (confirmed): setSession on the empty token is an atomic no-op
for every resolver state and every options value: nothing is serialized or
written, the whole state (session included) is unchanged, and nothing is
returned. -/
theorem claim_C9 (cfg : Config) (ser : Ser) (opt : CookieOpt) (st : SatpamState) :
    setSession cfg ser (JSArg.str "") opt st = (none, st) := by
  simp [setSession, setSessionVal]

/-- Claim C10 (confirmed): in the manual key=value parser, a pair whose
value contains '=' keeps only the substring between the first and second
'=' - the value is truncated at its first internal '=' and differs from the
full value. -/
theorem claim_C10 (k v : String)
    (hk1 : '=' ∉ k.data) (hk2 : '&' ∉ k.data)
    (hv1 : '&' ∉ v.data) (hv2 : '=' ∈ v.data) :
    jsGet (parseParams (k ++ "=" ++ v)) k =
      some (String.mk (v.data.takeWhile (fun x => x != '='))) ∧
    String.mk (v.data.takeWhile (fun x => x != '=')) ≠ v := by
  have hdata : (k ++ "=" ++ v).data = k.data ++ '=' :: v.data := by
    rw [String.data_append, String.data_append]
    show (k.data ++ ['=']) ++ v.data = k.data ++ '=' :: v.data
    simp
  have hamp : '&' ∉ (k ++ "=" ++ v).data := by
    rw [hdata]
    intro hm
    rcases List.mem_append.mp hm with hm | hm
    · exact hk2 hm
    · rcases List.mem_cons.mp hm with hm | hm
      · exact absurd hm (by decide)
      · exact hv1 hm
  have hsplit1 : jsSplit '&' (k ++ "=" ++ v) = [k ++ "=" ++ v] := by
    unfold jsSplit
    rw [splitCharAux_not_mem '&' _ hamp]
    rfl
  have hsplit2 : jsSplit '=' (k ++ "=" ++ v) =
      k :: (splitCharAux '=' v.data).map (fun l => String.mk l) := by
    unfold jsSplit
    rw [hdata, splitCharAux_append '=' _ _ hk1]
    rfl
  have hparse : parseParams (k ++ "=" ++ v) =
      [(k, some (String.mk (v.data.takeWhile (fun x => x != '='))))] := by
    unfold parseParams
    rw [hsplit1]
    simp only [List.map, List.foldl]
    rw [hsplit2]
    cases hsp : splitCharAux '=' v.data with
    | nil => exact absurd hsp (splitCharAux_ne_nil '=' v.data)
    | cons hd tl =>
      have hhd : hd = v.data.takeWhile (fun x => x != '=') := by
        rw [← splitCharAux_headD '=' v.data, hsp]
        rfl
      simp [jsAssign, hhd]
  refine ⟨by rw [hparse]; simp [jsGet], ?_⟩
  intro he
  have hd2 : v.data.takeWhile (fun x => x != '=') = v.data := congrArg String.data he
  have h2 : '=' ∈ v.data.takeWhile (fun x => x != '=') := by rw [hd2]; exact hv2
  have h3 := List.mem_takeWhile_imp h2
  simp at h3

theorem claim_C10_witness :
    jsGet (parseParams ("k" ++ "=" ++ "a=b")) "k" =
      some (String.mk (("a=b").data.takeWhile (fun x => x != '='))) ∧
    String.mk (("a=b").data.takeWhile (fun x => x != '=')) ≠ "a=b" :=
  claim_C10 "k" "a=b" (by decide) (by decide) (by decide) (by decide)

